import Mathlib

/-!
Verification of the cryptoAgent analysis-and-policy engine.

Shallow embedding of the algorithmic core of the repository:
`services/parameter_optimizer.py` (parameter sanitizer and the external
optimization path) and `services/market_analyzer.py` (indicator
computation, trend classifier, trading recommendation, trade-flow
analysis).  Python floats are modelled as rationals (`ℚ`); the two
transcendental kernels the analyzer uses (`math.sqrt`/`np.std` and the
`np.exp` weights inside the EMA) are passed in as explicit function
parameters `sqrtQ expQ : ℚ → ℚ`, so every theorem below holds for any
instantiation of those kernels (with `sqrtQ 0 = 0` assumed where a
result depends on it).  Fallible Python paths are `Option`/`Except`.
Division on `ℚ` is total with `x / 0 = 0`; every place where that
convention is reachable is guarded exactly as the source is, or noted.
-/

/-! ### Parameter sets and the sanitizer (`parameter_optimizer.py`) -/

/-- A trader configuration: the four tunable knobs.  Each field is
`Option ℚ` because every one of them can be `None` in the source
(`dict.get` misses, or an explicit JSON `null`). -/
structure Params where
  profit_margin : Option ℚ
  trade_size : Option ℚ
  max_open_time : Option ℚ
  stop_loss : Option ℚ
deriving DecidableEq, Repr

/-- Absolute clamp of one parameter (`_sanitize_parameters`, first loop):
`sanitized[param] = max(min_val, min(max_val, value))` when the value is
not `None`, otherwise the value passes through unchanged. -/
def clampAbs (lo hi : ℚ) : Option ℚ → Option ℚ
  | none => none
  | some x => some (max lo (min hi x))

/-- Rate-of-change limiter of one parameter (`_sanitize_parameters`,
second loop).  Python truthiness: the limiter runs only when both the
previous config's value and the already-clamped candidate are non-`None`
and non-zero (`if current_value and sanitized[param]:`); then
`max_change = current_value * 0.3` and the candidate is clamped into
`[current - max_change, current + max_change]`. -/
def rateLimit (cur v : Option ℚ) : Option ℚ :=
  match cur, v with
  | some c, some x =>
      if c ≠ 0 ∧ x ≠ 0 then
        some (max (c - c * 0.3) (min (c + c * 0.3) x))
      else some x
  | _, _ => v

/-- Embeds `_sanitize_parameters(params, current_config)`: absolute clamp on all
four fields, then the ±30% rate limiter on `profit_margin`,
`trade_size`, `max_open_time` (but not `stop_loss`), relative to the
previous configuration. -/
def sanitize_parameters (params cfg : Params) : Params :=
  let s : Params :=
    { profit_margin := clampAbs 0.1 5.0 params.profit_margin
      trade_size := clampAbs 0.001 0.1 params.trade_size
      max_open_time := clampAbs 1 168 params.max_open_time
      stop_loss := clampAbs 1.0 15.0 params.stop_loss }
  { s with
    profit_margin := rateLimit cfg.profit_margin s.profit_margin
    trade_size := rateLimit cfg.trade_size s.trade_size
    max_open_time := rateLimit cfg.max_open_time s.max_open_time }

/-- Holds when `lo ≤ x ≤ hi` and the value is present. -/
def withinB (lo hi : ℚ) : Option ℚ → Bool
  | none => false
  | some x => decide (lo ≤ x ∧ x ≤ hi)

/-- Holds when `lo ≤ x ≤ hi`, or the value is absent (`None` is allowed). -/
def withinOrNullB (lo hi : ℚ) : Option ℚ → Bool
  | none => true
  | some x => decide (lo ≤ x ∧ x ≤ hi)

/-- The output is within ±30% of the previous value, vacuously true when
the output is absent (then the rate limiter has nothing to bound). -/
def within30B : Option ℚ → Option ℚ → Bool
  | _, none => true
  | some c, some r => decide (c - c * 0.3 ≤ r ∧ r ≤ c + c * 0.3)
  | none, some _ => false

/-! ### Trade-flow analysis (`_analyze_trade_activity`) -/

inductive Pressure where
  | buying | selling | neutral
deriving DecidableEq, Repr

/-- Result of `_analyze_trade_activity`: either the degraded-input
sentinel `"unknown"` (empty trade list), or the flow record.  A trade is
modelled by its `isBuyerMaker` flag; the `"error" in recent_trades`
guard concerns a collaborator's error marker, which a list of flags
cannot contain. -/
inductive TradeActivity where
  | unknown
  | flow (buys sells total : ℕ) (buyShare : ℚ) (pressure : Pressure) (strength : ℚ)
deriving DecidableEq, Repr

/-- Embeds `_analyze_trade_activity(recent_trades)`.  `buys` counts trades with
`isBuyerMaker` false, `sells` those with it true; the `else 0.5` branch
of the ratio is kept exactly as in the source even though the empty list
already short-circuited to the sentinel. -/
def analyze_trade_activity (trades : List Bool) : TradeActivity :=
  if trades = [] then .unknown
  else
    let buys := (trades.filter (fun b => !b)).length
    let sells := (trades.filter (fun b => b)).length
    let total := trades.length
    let share : ℚ := if 0 < total then (buys : ℚ) / (total : ℚ) else 0.5
    if 0.6 < share then .flow buys sells total share .buying ((share - 0.5) * 2)
    else if share < 0.4 then .flow buys sells total share .selling ((0.5 - share) * 2)
    else .flow buys sells total share .neutral 0

/-- Projection used to talk about the computed buy ratio (if any). -/
def buyShareOf : TradeActivity → Option ℚ
  | .unknown => none
  | .flow _ _ _ r _ _ => some r

/-! ### Trend classification (`_determine_trend`) -/

inductive Direction where
  | up | down | sideways | unknown
deriving DecidableEq, Repr

/-- The three directional votes.  `short` compares the last close with
`ma_7`, `medium` compares `ma_7` with `ma_25`, `long` compares `ma_25`
with `ma_99` and falls back to `medium` when `ma_99` is unavailable.
All comparisons are strict, so equality votes `down`. -/
def trendVotes (lastClose m7 m25 : ℚ) (ma99 : Option ℚ) : Direction × Direction × Direction :=
  let s := if m7 < lastClose then Direction.up else Direction.down
  let m := if m25 < m7 then Direction.up else Direction.down
  let l := match ma99 with
    | some m99 => if m99 < m25 then Direction.up else Direction.down
    | none => m
  (s, m, l)

/-- The tie-break table of `_determine_trend` (pre-adjustment). -/
def trendBase (s m l : Direction) : Direction × ℚ :=
  if s = m ∧ m = l then (s, 0.9)
  else if s = m then (s, 0.7)
  else if m = l then (m, 0.6)
  else if s ≠ m ∧ m ≠ l then (Direction.sideways, 0.3)
  else (Direction.sideways, 0.5)

/-- Embeds `_determine_trend(prices, ma_7, ma_25, ma_99)`.  The source reads
only `prices[-1]` from the price array, passed here as `lastClose`.
When `ma_7` or `ma_25` is `None` the result is `("unknown", 0)`;
otherwise the tie-break table applies followed by the ±0.1 strength
adjustment keyed on the distance of the last close from `ma_25`. -/
def determine_trend (lastClose : ℚ) (ma7 ma25 ma99 : Option ℚ) : Direction × ℚ :=
  match ma7, ma25 with
  | some m7, some m25 =>
    let v := trendVotes lastClose m7 m25 ma99
    let base := trendBase v.1 v.2.1 v.2.2
    let dist := |lastClose / m25 - 1|
    if 0.05 < dist then
      if (base.1 = Direction.up ∧ m25 < lastClose) ∨
         (base.1 = Direction.down ∧ lastClose < m25) then
        (base.1, min 1 (base.2 + 0.1))
      else
        (base.1, max 0.1 (base.2 - 0.1))
    else base
  | _, _ => (Direction.unknown, 0)

/-! ### Trading recommendation (`_recommend_trading`) -/

/-- Embeds `_recommend_trading(trend_direction, trend_strength, volatility,
rsi, macd_histogram)`: sequential rule application, later rules
overriding earlier ones, the `volatility > 30` veto last. -/
def recommend_trading (d : Direction) (strength vol : ℚ) (rsi : Option ℚ)
    (hist : Option (List ℚ)) : Bool :=
  let r1 := if d = Direction.up ∧ 0.6 < strength then true else false
  let r2 := if d = Direction.sideways ∧ vol < 15 then true else r1
  let r3 := if d = Direction.down ∧ 0.6 < strength then false else r2
  let r4 := match rsi with
    | some x => if x < 30 then true else if 70 < x then false else r3
    | none => r3
  let r5 := match hist with
    | some h =>
      if 1 < h.length then
        let a := h.getD (h.length - 1) 0
        let b := h.getD (h.length - 2) 0
        if b < a ∧ 0 < a then true
        else if a < b ∧ a < 0 then false
        else r4
      else r4
    | none => r4
  if 30 < vol then false else r5

/-! ### Numeric helpers shared by the indicators -/

/-- Embeds `np.diff`: consecutive differences, `deltas[i] = xs[i+1] - xs[i]`. -/
def diffs : List ℚ → List ℚ
  | a :: b :: rest => (b - a) :: diffs (b :: rest)
  | _ => []

/-- Embeds `np.mean` (0 on the empty list; every call site is guarded to be
nonempty, as in the source where the empty case would be `nan`). -/
def meanQ (xs : List ℚ) : ℚ := xs.sum / (xs.length : ℚ)

/-- Population variance, the square of `np.std`. -/
def varQ (xs : List ℚ) : ℚ := meanQ (xs.map (fun x => (x - meanQ xs) ^ 2))

/-- Embeds `np.std`, with the square root supplied as an explicit kernel. -/
def stdQ (sqrtQ : ℚ → ℚ) (xs : List ℚ) : ℚ := sqrtQ (varQ xs)

/-! ### RSI (`_calculate_rsi`, window 14) -/

/-- One iteration of Wilder smoothing: state is `(up, down)`, input is
one price delta. -/
def rsiStep (w : ℕ) (ud : ℚ × ℚ) (delta : ℚ) : ℚ × ℚ :=
  let upval := if 0 < delta then delta else 0
  let downval := if 0 < delta then 0 else -delta
  ((ud.1 * ((w : ℚ) - 1) + upval) / (w : ℚ), (ud.2 * ((w : ℚ) - 1) + downval) / (w : ℚ))

/-- Computes `100 - 100/(1 + up/down)`; when `down == 0` the source computes with
`float('inf')`, for which the expression is exactly `100`. -/
def rsiOf (up down : ℚ) : ℚ :=
  if down = 0 then 100 else 100 - 100 / (1 + up / down)

/-- Seed state of the smoothing: the first `window + 1` deltas are split
by sign (`seed[seed >= 0]` and `seed[seed < 0]`), each summed and
divided by `window`. -/
def rsiSeed (deltas : List ℚ) (window : ℕ) : ℚ × ℚ :=
  (((deltas.take (window + 1)).filter (fun d => 0 ≤ d)).sum / (window : ℚ),
   -(((deltas.take (window + 1)).filter (fun d => d < 0)).sum) / (window : ℚ))

/-- Embeds `_calculate_rsi(prices, window)`.  Returns `None` for fewer than
`window + 1` prices.  The seed averages the first `window + 1` deltas
split by sign; the loop then smooths through `deltas[window-1 ..]` and
the returned value `rsi[-1]` is the one produced by the final
iteration (the loop runs at least once whenever the gate passes). -/
def calculate_rsi (prices : List ℚ) (window : ℕ) : Option ℚ :=
  if prices.length < window + 1 then none
  else
    let ud := ((diffs prices).drop (window - 1)).foldl (rsiStep window)
      (rsiSeed (diffs prices) window)
    some (rsiOf ud.1 ud.2)

/-! ### EMA / MACD (`_calculate_ema`, `_calculate_macd`) -/

/-- Embeds `_calculate_ema(prices, window)`: weights `exp(linspace(-1,0,w))`
normalized to sum 1, applied by full-mode convolution truncated to the
input length, with the first `window` outputs backfilled by the value at
index `window`.  `expQ` stands for `np.exp`. -/
def calculate_ema (expQ : ℚ → ℚ) (prices : List ℚ) (window : ℕ) : List ℚ :=
  let lin := (List.range window).map (fun i => -1 + (i : ℚ) / ((window : ℚ) - 1))
  let ws := lin.map expQ
  let weights := ws.map (fun w => w / ws.sum)
  let n := prices.length
  let raw := (List.range n).map (fun k =>
    ((List.range n).map (fun i =>
      if i ≤ k ∧ k - i < window then prices.getD i 0 * weights.getD (k - i) 0 else 0)).sum)
  let pivot := raw.getD window 0
  (List.range n).map (fun i => if i < window then pivot else raw.getD i 0)

/-- Embeds `_calculate_macd(prices, fast, slow, signal)`: `None` triple when
there are fewer than `slow + signal` prices, otherwise the
`(macd_line, signal_line, histogram)` arrays. -/
def calculate_macd (expQ : ℚ → ℚ) (prices : List ℚ) (fast slow sig : ℕ) :
    Option (List ℚ × List ℚ × List ℚ) :=
  if prices.length < slow + sig then none
  else
    let emaFast := calculate_ema expQ prices fast
    let emaSlow := calculate_ema expQ prices slow
    let macdLine := List.zipWith (fun a b => a - b) emaFast emaSlow
    let signalLine := calculate_ema expQ macdLine sig
    let histogram := List.zipWith (fun a b => a - b) macdLine signalLine
    some (macdLine, signalLine, histogram)

/-! ### Bollinger bands (`_calculate_bollinger_bands`, window 20, 2σ) -/

/-- Embeds `_calculate_bollinger_bands(prices, window, num_std)`: `None` triple
when there are fewer than `window` prices; otherwise middle band =
valid-mode moving average edge-padded at the front, rolling standard
deviation over `prices[i-window:i]` (or `prices[:i+1]` while the window
is not yet full), bands = middle ± std·num_std. -/
def calculate_bollinger_bands (sqrtQ : ℚ → ℚ) (prices : List ℚ) (window : ℕ) (numStd : ℚ) :
    Option (List ℚ × List ℚ × List ℚ) :=
  if prices.length < window then none
  else
    let n := prices.length
    let valid := (List.range (n - window + 1)).map (fun j => meanQ ((prices.drop j).take window))
    let middle := List.replicate (n - valid.length) (valid.getD 0 0) ++ valid
    let rollingStd := (List.range n).map (fun i =>
      if window ≤ i then stdQ sqrtQ ((prices.drop (i - window)).take window)
      else stdQ sqrtQ (prices.take (i + 1)))
    let upper := List.zipWith (fun m s => m + s * numStd) middle rollingStd
    let lower := List.zipWith (fun m s => m - s * numStd) middle rollingStd
    some (upper, middle, lower)

/-! ### Market metrics and the analysis entry point
(`_calculate_market_metrics`, `analyze_market_conditions`) -/

/-- The fields of the `_calculate_market_metrics` result dictionary that
are derived from the candle series.  The `reasoning` string (a fixed
template render of fields already present here) is not modelled; no
claim concerns its text. -/
structure MarketMetrics where
  current_price : ℚ
  price_change_24h : ℚ
  price_history : List ℚ
  ma_7 : Option ℚ
  ma_25 : Option ℚ
  ma_99 : Option ℚ
  rsi : Option ℚ
  macd_line : Option ℚ
  signal_line : Option ℚ
  histogram : Option ℚ
  bb_upper : Option ℚ
  bb_middle : Option ℚ
  bb_lower : Option ℚ
  volatility : ℚ
  trend_direction : Direction
  trend_strength : ℚ
  trading_recommended : Bool
deriving Repr

/-- Embeds `_calculate_market_metrics(df, symbol)` restricted to the close
prices — the function extracts highs, lows and volumes too but never
reads them.  Window sizes are the source's defaults (RSI 14, MACD
12/26/9, Bollinger 20/2).  Negative indices of the source are total here
via `getD`/`getLastD`; each such access is guarded by the same length
conditions as in the source. -/
def calculate_market_metrics (sqrtQ expQ : ℚ → ℚ) (closes : List ℚ) : MarketMetrics :=
  let n := closes.length
  let current_price := closes.getLastD 0
  let price_change_24h := if 24 ≤ n then (current_price / closes.getD (n - 24) 0 - 1) * 100 else 0
  let price_history := if 24 ≤ n then closes.drop (n - 24) else []
  let ma7 := if 7 ≤ n then some (meanQ (closes.drop (n - 7))) else none
  let ma25 := if 25 ≤ n then some (meanQ (closes.drop (n - 25))) else none
  let ma99 := if 99 ≤ n then some (meanQ (closes.drop (n - 99))) else none
  let rsi := calculate_rsi closes 14
  let macd := calculate_macd expQ closes 12 26 9
  let bb := calculate_bollinger_bands sqrtQ closes 20 2
  let returns := List.zipWith (fun d p => d / p) (diffs closes) closes.dropLast
  let volatility := stdQ sqrtQ returns * 100 * sqrtQ 24
  let trend := determine_trend current_price ma7 ma25 ma99
  let recommended := recommend_trading trend.1 trend.2 volatility rsi (macd.map (fun t => t.2.2))
  { current_price := current_price
    price_change_24h := price_change_24h
    price_history := price_history
    ma_7 := ma7, ma_25 := ma25, ma_99 := ma99
    rsi := rsi
    macd_line := macd.map (fun t => t.1.getLastD 0)
    signal_line := macd.map (fun t => t.2.1.getLastD 0)
    histogram := macd.map (fun t => t.2.2.getLastD 0)
    bb_upper := bb.map (fun t => t.1.getLastD 0)
    bb_middle := bb.map (fun t => t.2.1.getLastD 0)
    bb_lower := bb.map (fun t => t.2.2.getLastD 0)
    volatility := volatility
    trend_direction := trend.1
    trend_strength := trend.2
    trading_recommended := recommended }

/-- One OHLCV candle, as extracted by the analyzer. -/
structure Candle where
  open_ : ℚ
  high : ℚ
  low : ℚ
  close : ℚ
  volume : ℚ
deriving DecidableEq, Repr

/-- Embeds `analyze_market_conditions`, restricted to the candle-derived part:
fewer than 24 candles (or none) fails with the insufficient-data error,
otherwise the market metrics are computed.  The merge of trade-activity,
order-book and ticker data into the result dictionary concerns
collaborator inputs that no claim about this entry point touches. -/
def analyze_market_conditions (sqrtQ expQ : ℚ → ℚ) (candles : List Candle) :
    Except String MarketMetrics :=
  if candles.length < 24 then .error "Insufficient historical data"
  else .ok (calculate_market_metrics sqrtQ expQ (candles.map Candle.close))

/-! ### The external (LLM) optimization path
(`_llm_optimize`, `openai_service.optimize_trading_parameters`) -/

/-- A JSON-object payload from the external optimizer.  Each parameter
key is `Option (Option ℚ)`: the outer layer is key presence (so that
`dict.get(key, default)` is faithful), the inner layer is an explicit
JSON `null`.  `extraKeys` records whether the object carries any other
key (this decides Python truthiness of the dict). -/
structure LLMMapping where
  profit_margin : Option (Option ℚ)
  trade_size : Option (Option ℚ)
  max_open_time : Option (Option ℚ)
  stop_loss : Option (Option ℚ)
  reasoning : Option String
  expected_improvement : Option String
  extraKeys : Bool
deriving DecidableEq, Repr

/-- Truthiness of the payload dict: empty iff it has no key at all. -/
def LLMMapping.isEmpty (m : LLMMapping) : Bool :=
  m.profit_margin.isNone && m.trade_size.isNone && m.max_open_time.isNone &&
  m.stop_loss.isNone && m.reasoning.isNone && m.expected_improvement.isNone && !m.extraKeys

/-- What `optimize_trading_parameters` hands back to the optimizer:
either a JSON object, or some other JSON value (list, number, ...) —
`json.loads` happily returns non-objects. -/
inductive LLMPayload where
  | mapping (m : LLMMapping)
  | nonMapping
deriving DecidableEq, Repr

/-- The `except` branch of `optimize_trading_parameters`: on any error
in the external call (including a malformed, non-JSON payload) it
returns a dict echoing the current configuration with a reasoning
string noting the failure. -/
def llmFallback (cfg : Params) (e : String) : LLMPayload :=
  .mapping
    { profit_margin := some cfg.profit_margin
      trade_size := some cfg.trade_size
      max_open_time := some cfg.max_open_time
      stop_loss := some cfg.stop_loss
      reasoning := some ("Error optimizing parameters: " ++ e)
      expected_improvement := some "None due to optimization failure"
      extraKeys := false }

/-- Result dictionary of `_llm_optimize`. -/
structure OptOutcome where
  success : Bool
  errMsg : Option String
  new_config : Option Params
  reasoning : Option String
  expected_improvement : Option String
deriving DecidableEq, Repr

/-- Embeds `_llm_optimize(pair, current_config, trade_history,
market_conditions)` from the point where the external payload is in
hand: shape validation (`not optimization_result or not
isinstance(optimization_result, dict)` fails the call), extraction of
the four parameters with the current config as `get` default, then the
sanitizer.  The config-update call to the backend collaborator is
out of scope per the spec and modelled as succeeding. -/
def llm_optimize (payload : LLMPayload) (cfg : Params) : OptOutcome :=
  match payload with
  | .nonMapping =>
      { success := false, errMsg := some "Invalid optimization result"
        new_config := none, reasoning := none, expected_improvement := none }
  | .mapping m =>
      if m.isEmpty then
        { success := false, errMsg := some "Invalid optimization result"
          new_config := none, reasoning := none, expected_improvement := none }
      else
        let params : Params :=
          { profit_margin := m.profit_margin.getD cfg.profit_margin
            trade_size := m.trade_size.getD cfg.trade_size
            max_open_time := m.max_open_time.getD cfg.max_open_time
            stop_loss := m.stop_loss.getD cfg.stop_loss }
        { success := true, errMsg := none
          new_config := some (sanitize_parameters params cfg)
          reasoning := some (m.reasoning.getD "No reasoning provided")
          expected_improvement := some (m.expected_improvement.getD "Unknown") }

/-! ### Lemmas about the sanitizer -/

lemma withinB_some {lo hi : ℚ} {v : Option ℚ} (h : withinB lo hi v = true) :
    ∃ x, v = some x ∧ lo ≤ x ∧ x ≤ hi := by
  cases v with
  | none => simp [withinB] at h
  | some x =>
      refine ⟨x, rfl, ?_⟩
      simpa [withinB, decide_eq_true_eq] using h

lemma clampAbs_withinOrNull (lo hi : ℚ) (hhi : lo ≤ hi) (v : Option ℚ) :
    withinOrNullB lo hi (clampAbs lo hi v) = true := by
  cases v with
  | none => rfl
  | some x =>
      show withinOrNullB lo hi (some (max lo (min hi x))) = true
      simp only [withinOrNullB, decide_eq_true_eq]
      exact ⟨le_max_left _ _, max_le hhi (min_le_left _ _)⟩

lemma clampAbs_of_within {lo hi x : ℚ} (h1 : lo ≤ x) (h2 : x ≤ hi) :
    clampAbs lo hi (some x) = some x := by
  simp [clampAbs, min_eq_right h2, max_eq_right h1]

/-- Core property of one rate-limited field: if the previous value is in
`[lo, hi]` with `0 < lo`, the rate-limited output of an absolutely
clamped candidate stays within the absolute bound, within ±30% of the
previous value, and is present whenever the candidate is. -/
lemma sanitizeField (lo hi : ℚ) (cur cand : Option ℚ) (hlo : 0 < lo) (hhi : lo ≤ hi)
    (hcur : withinB lo hi cur = true) :
    withinOrNullB lo hi (rateLimit cur (clampAbs lo hi cand)) = true ∧
    within30B cur (rateLimit cur (clampAbs lo hi cand)) = true ∧
    (cand.isSome → (rateLimit cur (clampAbs lo hi cand)).isSome) := by
  obtain ⟨c, rfl, hc1, hc2⟩ := withinB_some hcur
  have hc0 : 0 < c := lt_of_lt_of_le hlo hc1
  cases cand with
  | none =>
      refine ⟨rfl, rfl, ?_⟩
      intro h
      simp at h
  | some x =>
      set v := max lo (min hi x) with hv
      have hv1 : lo ≤ v := le_max_left _ _
      have hv2 : v ≤ hi := max_le hhi (min_le_left _ _)
      have hv0 : 0 < v := lt_of_lt_of_le hlo hv1
      have hrl : rateLimit (some c) (clampAbs lo hi (some x)) =
          some (max (c - c * 0.3) (min (c + c * 0.3) v)) := by
        simp only [clampAbs, rateLimit, ← hv]
        rw [if_pos ⟨ne_of_gt hc0, ne_of_gt hv0⟩]
      rw [hrl]
      set y := max (c - c * 0.3) (min (c + c * 0.3) v) with hy
      have h1 : lo ≤ y := le_max_of_le_right (le_min (by linarith) hv1)
      have h2 : y ≤ hi := max_le (by linarith) (le_trans (min_le_right _ _) hv2)
      have h3 : c - c * 0.3 ≤ y := le_max_left _ _
      have h4 : y ≤ c + c * 0.3 := max_le (by linarith) (min_le_left _ _)
      refine ⟨?_, ?_, fun _ => rfl⟩
      · simp only [withinOrNullB, decide_eq_true_eq]
        exact ⟨h1, h2⟩
      · simp only [within30B, decide_eq_true_eq]
        exact ⟨h3, h4⟩

/-- C1, amended.  The claim as frozen fails on the code (see the
counterexample below): with a previous value outside its absolute bound,
the rate limiter runs after the absolute clamp and drags the output back
out of bounds.  Amended statement: provided the previous configuration's
`profit_margin`, `trade_size` and `max_open_time` are present and within
their absolute bounds, every non-null sanitized field lies within its
ClampPolicy bound (`stop_loss` unconditionally so), the three
rate-limited outputs lie within ±30% of the previous values, and each of
them is present whenever its candidate is. -/
theorem c1_sanitize_bounds (params cfg : Params)
    (hpm : withinB 0.1 5.0 cfg.profit_margin = true)
    (hts : withinB 0.001 0.1 cfg.trade_size = true)
    (hmo : withinB 1 168 cfg.max_open_time = true) :
    withinOrNullB 0.1 5.0 (sanitize_parameters params cfg).profit_margin = true ∧
    withinOrNullB 0.001 0.1 (sanitize_parameters params cfg).trade_size = true ∧
    withinOrNullB 1 168 (sanitize_parameters params cfg).max_open_time = true ∧
    withinOrNullB 1.0 15.0 (sanitize_parameters params cfg).stop_loss = true ∧
    within30B cfg.profit_margin (sanitize_parameters params cfg).profit_margin = true ∧
    within30B cfg.trade_size (sanitize_parameters params cfg).trade_size = true ∧
    within30B cfg.max_open_time (sanitize_parameters params cfg).max_open_time = true ∧
    (params.profit_margin.isSome → (sanitize_parameters params cfg).profit_margin.isSome) ∧
    (params.trade_size.isSome → (sanitize_parameters params cfg).trade_size.isSome) ∧
    (params.max_open_time.isSome → (sanitize_parameters params cfg).max_open_time.isSome) := by
  have epm : (sanitize_parameters params cfg).profit_margin =
      rateLimit cfg.profit_margin (clampAbs 0.1 5.0 params.profit_margin) := rfl
  have ets : (sanitize_parameters params cfg).trade_size =
      rateLimit cfg.trade_size (clampAbs 0.001 0.1 params.trade_size) := rfl
  have emo : (sanitize_parameters params cfg).max_open_time =
      rateLimit cfg.max_open_time (clampAbs 1 168 params.max_open_time) := rfl
  have esl : (sanitize_parameters params cfg).stop_loss =
      clampAbs 1.0 15.0 params.stop_loss := rfl
  have Hpm := sanitizeField 0.1 5.0 cfg.profit_margin params.profit_margin
    (by norm_num) (by norm_num) hpm
  have Hts := sanitizeField 0.001 0.1 cfg.trade_size params.trade_size
    (by norm_num) (by norm_num) hts
  have Hmo := sanitizeField 1 168 cfg.max_open_time params.max_open_time
    (by norm_num) (by norm_num) hmo
  rw [epm, ets, emo, esl]
  exact ⟨Hpm.1, Hts.1, Hmo.1, clampAbs_withinOrNull 1.0 15.0 (by norm_num) _,
    Hpm.2.1, Hts.2.1, Hmo.2.1, Hpm.2.2, Hts.2.2, Hmo.2.2⟩

/-- Witness for the amended C1 at a concrete in-bounds configuration. -/
theorem c1_sanitize_bounds_witness :
    withinB 0.1 5.0 (some (1 : ℚ)) = true ∧
    withinOrNullB 0.1 5.0
      (sanitize_parameters ⟨some 3, some 0.05, some 60, some 4⟩
        ⟨some 1, some 0.05, some 48, none⟩).profit_margin = true :=
  ⟨by norm_num [withinB],
    (c1_sanitize_bounds ⟨some 3, some 0.05, some 60, some 4⟩
      ⟨some 1, some 0.05, some 48, none⟩ (by norm_num [withinB])
      (by norm_num [withinB]) (by norm_num [withinB])).1⟩

/-- C1 counterexample: with the previous `profit_margin = 10` (outside
the absolute bound `[0.1, 5]`) and candidate `10`, the sanitizer first
clamps to `5` and then the ±30% rate limiter pulls the output to `7`,
outside the absolute bound — refuting the claim that every non-null
sanitized field lies within its ClampPolicy bound. -/
theorem c1_counterexample :
    (sanitize_parameters ⟨some 10, some 0.01, some 48, none⟩
      ⟨some 10, some 0.01, some 48, none⟩).profit_margin = some 7 ∧
    withinOrNullB 0.1 5.0
      (sanitize_parameters ⟨some 10, some 0.01, some 48, none⟩
        ⟨some 10, some 0.01, some 48, none⟩).profit_margin = false := by
  have e : (sanitize_parameters ⟨some 10, some 0.01, some 48, none⟩
      ⟨some 10, some 0.01, some 48, none⟩).profit_margin =
      rateLimit (some 10) (clampAbs 0.1 5.0 (some 10)) := rfl
  have h1 : clampAbs 0.1 5.0 (some (10 : ℚ)) = some 5 := by
    norm_num [clampAbs, min_def, max_def]
  have h2 : rateLimit (some (10 : ℚ)) (some 5) = some 7 := by
    norm_num [rateLimit, min_def, max_def]
  rw [e, h1, h2]
  refine ⟨rfl, ?_⟩
  norm_num [withinOrNullB]

/-- C2: the rate limiter runs after the absolute clamp and is skipped
for a field whenever the previous config value or the clamped candidate
is falsy (`None` or `0`).  Consequently (same hypotheses as the amended
C1) the sanitized outputs are in-bounds and within ±30% of the previous
values; and there is a previous value outside its absolute bound for
which the sanitized output is outside the absolute bound as well — the
rate limiter pulls the clamped candidate back toward the out-of-bounds
previous value. -/
theorem c2_rate_limiter (params cfg : Params)
    (hpm : withinB 0.1 5.0 cfg.profit_margin = true)
    (hts : withinB 0.001 0.1 cfg.trade_size = true)
    (hmo : withinB 1 168 cfg.max_open_time = true) :
    (∀ v : Option ℚ, rateLimit none v = v) ∧
    (∀ v : Option ℚ, rateLimit (some 0) v = v) ∧
    (∀ cur : Option ℚ, rateLimit cur none = none) ∧
    (∀ c : ℚ, rateLimit (some c) (some 0) = some 0) ∧
    (withinOrNullB 0.1 5.0 (sanitize_parameters params cfg).profit_margin = true ∧
     withinOrNullB 0.001 0.1 (sanitize_parameters params cfg).trade_size = true ∧
     withinOrNullB 1 168 (sanitize_parameters params cfg).max_open_time = true ∧
     withinOrNullB 1.0 15.0 (sanitize_parameters params cfg).stop_loss = true ∧
     within30B cfg.profit_margin (sanitize_parameters params cfg).profit_margin = true ∧
     within30B cfg.trade_size (sanitize_parameters params cfg).trade_size = true ∧
     within30B cfg.max_open_time (sanitize_parameters params cfg).max_open_time = true) ∧
    (∃ p q : Params, q.profit_margin.isSome ∧ withinB 0.1 5.0 q.profit_margin = false ∧
      withinOrNullB 0.1 5.0 (sanitize_parameters p q).profit_margin = false) := by
  refine ⟨?_, ?_, ?_, ?_, ?_, ?_⟩
  · intro v; cases v <;> rfl
  · intro v
    cases v with
    | none => rfl
    | some x => simp [rateLimit]
  · intro cur; cases cur <;> rfl
  · intro c; simp [rateLimit]
  · have Hpm := sanitizeField 0.1 5.0 cfg.profit_margin params.profit_margin
      (by norm_num) (by norm_num) hpm
    have Hts := sanitizeField 0.001 0.1 cfg.trade_size params.trade_size
      (by norm_num) (by norm_num) hts
    have Hmo := sanitizeField 1 168 cfg.max_open_time params.max_open_time
      (by norm_num) (by norm_num) hmo
    exact ⟨Hpm.1, Hts.1, Hmo.1, clampAbs_withinOrNull 1.0 15.0 (by norm_num) _,
      Hpm.2.1, Hts.2.1, Hmo.2.1⟩
  · refine ⟨⟨some 10, some 0.01, some 48, none⟩, ⟨some 10, some 0.01, some 48, none⟩,
      rfl, by norm_num [withinB], ?_⟩
    have e : (sanitize_parameters ⟨some 10, some 0.01, some 48, none⟩
        ⟨some 10, some 0.01, some 48, none⟩).profit_margin =
        rateLimit (some 10) (clampAbs 0.1 5.0 (some 10)) := rfl
    have h1 : clampAbs 0.1 5.0 (some (10 : ℚ)) = some 5 := by
      norm_num [clampAbs, min_def, max_def]
    have h2 : rateLimit (some (10 : ℚ)) (some 5) = some 7 := by
      norm_num [rateLimit, min_def, max_def]
    rw [e, h1, h2]
    norm_num [withinOrNullB]

/-- Witness for C2: the skip rule at a concrete falsy previous value,
with the in-bounds hypotheses discharged at a concrete configuration. -/
theorem c2_rate_limiter_witness :
    rateLimit (some (0 : ℚ)) (some 5) = some 5 :=
  (c2_rate_limiter ⟨some 3, some 0.05, some 60, some 4⟩ ⟨some 1, some 0.05, some 48, none⟩
    (by norm_num [withinB]) (by norm_num [withinB]) (by norm_num [withinB])).2.1 (some 5)

/-- C6: the `volatility > 30` veto is a final override — whatever the
trend, RSI and MACD histogram arguments are, the recommendation is
`false` whenever volatility exceeds 30. -/
theorem c6_volatility_veto (d : Direction) (strength vol : ℚ) (rsi : Option ℚ)
    (hist : Option (List ℚ)) (hv : 30 < vol) :
    recommend_trading d strength vol rsi hist = false := by
  simp [recommend_trading, hv]

/-- Witness for C6 at inputs that would otherwise recommend trading. -/
theorem c6_volatility_veto_witness :
    (30 : ℚ) < 31 ∧ recommend_trading Direction.up 1 31 none none = false :=
  ⟨by norm_num, c6_volatility_veto Direction.up 1 31 none none (by norm_num)⟩

/-- C9 counterexample: with no trades the analyzer returns the
`"unknown"` sentinel without computing any buy ratio — refuting the
claim that `buy_ratio = 0.5` is produced when there are no trades (that
fallback branch is unreachable behind the empty-input guard). -/
theorem c9_counterexample :
    buyShareOf (analyze_trade_activity []) = none ∧
    (none : Option ℚ) ≠ some (1 / 2) := ⟨rfl, by simp⟩

/-- C9, amended.  For an empty trade list the analyzer returns the
`"unknown"` sentinel (no ratio).  For a nonempty trade list it computes
`buy_ratio = buys / total` (`buys` counting trades whose `isBuyerMaker`
flag is false) and classifies pressure `buying` above 0.6 with strength
`(ratio - 0.5) * 2`, `selling` below 0.4 with strength
`(0.5 - ratio) * 2`, and `neutral` with strength 0 otherwise. -/
theorem c9_flow (trades : List Bool) (h : trades ≠ []) :
    analyze_trade_activity [] = TradeActivity.unknown ∧
    analyze_trade_activity trades =
      TradeActivity.flow ((trades.filter (fun b => !b)).length)
        ((trades.filter (fun b => b)).length) trades.length
        (((trades.filter (fun b => !b)).length : ℚ) / (trades.length : ℚ))
        (if 0.6 < ((trades.filter (fun b => !b)).length : ℚ) / (trades.length : ℚ)
          then Pressure.buying
          else if ((trades.filter (fun b => !b)).length : ℚ) / (trades.length : ℚ) < 0.4
          then Pressure.selling else Pressure.neutral)
        (if 0.6 < ((trades.filter (fun b => !b)).length : ℚ) / (trades.length : ℚ)
          then (((trades.filter (fun b => !b)).length : ℚ) / (trades.length : ℚ) - 0.5) * 2
          else if ((trades.filter (fun b => !b)).length : ℚ) / (trades.length : ℚ) < 0.4
          then (0.5 - ((trades.filter (fun b => !b)).length : ℚ) / (trades.length : ℚ)) * 2
          else 0) := by
  refine ⟨rfl, ?_⟩
  have hpos : 0 < trades.length := List.length_pos.mpr h
  simp only [analyze_trade_activity, if_neg h, if_pos hpos]
  split_ifs <;> rfl

/-- Witness for the amended C9 with one non-maker trade. -/
theorem c9_flow_witness :
    analyze_trade_activity [] = TradeActivity.unknown :=
  (c9_flow [false] (by simp)).1

/-- Parity of the three directional votes plus the tie-break table:
given up-or-down votes, the residual branch never fires. -/
lemma trendBase_of_votes (s m l : Direction)
    (hs : s = Direction.up ∨ s = Direction.down)
    (hm : m = Direction.up ∨ m = Direction.down)
    (hl : l = Direction.up ∨ l = Direction.down) :
    ((trendBase s m l).2 = 0.9 ∨ (trendBase s m l).2 = 0.7 ∨
     (trendBase s m l).2 = 0.6 ∨ (trendBase s m l).2 = 0.3) ∧
    trendBase s m l ≠ (Direction.sideways, 0.5) := by
  rcases hs with rfl | rfl <;> rcases hm with rfl | rfl <;> rcases hl with rfl | rfl <;>
    refine ⟨?_, ?_⟩ <;> simp [trendBase, Prod.ext_iff] <;> norm_num

/-- C10: the residual `(sideways, 0.5)` branch of the tie-break table is
unreachable when `ma_7` and `ma_25` are defined — each directional vote
is binary (`up` or `down`), one of the four preceding cases always
matches, and the pre-adjustment strength is one of 0.9, 0.7, 0.6, 0.3. -/
theorem c10_residual_unreachable (lastClose m7 m25 : ℚ) (ma99 : Option ℚ) :
    ((trendVotes lastClose m7 m25 ma99).1 = Direction.up ∨
     (trendVotes lastClose m7 m25 ma99).1 = Direction.down) ∧
    ((trendVotes lastClose m7 m25 ma99).2.1 = Direction.up ∨
     (trendVotes lastClose m7 m25 ma99).2.1 = Direction.down) ∧
    ((trendVotes lastClose m7 m25 ma99).2.2 = Direction.up ∨
     (trendVotes lastClose m7 m25 ma99).2.2 = Direction.down) ∧
    ((trendBase (trendVotes lastClose m7 m25 ma99).1 (trendVotes lastClose m7 m25 ma99).2.1
        (trendVotes lastClose m7 m25 ma99).2.2).2 = 0.9 ∨
     (trendBase (trendVotes lastClose m7 m25 ma99).1 (trendVotes lastClose m7 m25 ma99).2.1
        (trendVotes lastClose m7 m25 ma99).2.2).2 = 0.7 ∨
     (trendBase (trendVotes lastClose m7 m25 ma99).1 (trendVotes lastClose m7 m25 ma99).2.1
        (trendVotes lastClose m7 m25 ma99).2.2).2 = 0.6 ∨
     (trendBase (trendVotes lastClose m7 m25 ma99).1 (trendVotes lastClose m7 m25 ma99).2.1
        (trendVotes lastClose m7 m25 ma99).2.2).2 = 0.3) ∧
    trendBase (trendVotes lastClose m7 m25 ma99).1 (trendVotes lastClose m7 m25 ma99).2.1
      (trendVotes lastClose m7 m25 ma99).2.2 ≠ (Direction.sideways, 0.5) := by
  have hs : (trendVotes lastClose m7 m25 ma99).1 = Direction.up ∨
      (trendVotes lastClose m7 m25 ma99).1 = Direction.down := by
    rcases ma99 with _ | m99 <;> simp only [trendVotes] <;> split <;> simp
  have hm : (trendVotes lastClose m7 m25 ma99).2.1 = Direction.up ∨
      (trendVotes lastClose m7 m25 ma99).2.1 = Direction.down := by
    rcases ma99 with _ | m99 <;> simp only [trendVotes] <;> split <;> simp
  have hl : (trendVotes lastClose m7 m25 ma99).2.2 = Direction.up ∨
      (trendVotes lastClose m7 m25 ma99).2.2 = Direction.down := by
    rcases ma99 with _ | m99 <;> simp only [trendVotes] <;> split <;> simp
  have H := trendBase_of_votes _ _ _ hs hm hl
  exact ⟨hs, hm, hl, H.1, H.2⟩

/-- Witness for C10 at a concrete input (all votes `down`). -/
theorem c10_residual_unreachable_witness :
    (trendVotes 1 2 3 none).1 = Direction.up ∨
    (trendVotes 1 2 3 none).1 = Direction.down :=
  (c10_residual_unreachable 1 2 3 none).1

/-! ### Lemmas about RSI -/

lemma list_sum_nonpos : ∀ {l : List ℚ}, (∀ x ∈ l, x ≤ 0) → l.sum ≤ 0 := by
  intro l
  induction l with
  | nil => intro _; simp
  | cons a tl ih =>
      intro h
      rw [List.sum_cons]
      have ha := h a (List.mem_cons_self _ _)
      have htl := ih (fun x hx => h x (List.mem_cons_of_mem _ hx))
      linarith

lemma rsiStep_nonneg (w : ℕ) (ud : ℚ × ℚ) (d : ℚ) (h1 : 0 ≤ ud.1) (h2 : 0 ≤ ud.2)
    (hw : 1 ≤ w) :
    0 ≤ (rsiStep w ud d).1 ∧ 0 ≤ (rsiStep w ud d).2 := by
  have hw1 : (1 : ℚ) ≤ (w : ℚ) := by exact_mod_cast hw
  have hwq : (0 : ℚ) ≤ (w : ℚ) := by positivity
  unfold rsiStep
  dsimp only
  have hmul1 : 0 ≤ ud.1 * ((w : ℚ) - 1) := mul_nonneg h1 (by linarith)
  have hmul2 : 0 ≤ ud.2 * ((w : ℚ) - 1) := mul_nonneg h2 (by linarith)
  constructor
  · apply div_nonneg _ hwq
    have hupval : 0 ≤ if 0 < d then d else 0 := by
      split_ifs with h
      · exact le_of_lt h
      · exact le_refl 0
    linarith
  · apply div_nonneg _ hwq
    have hdownval : 0 ≤ if 0 < d then 0 else -d := by
      split_ifs with h
      · exact le_refl 0
      · linarith [not_lt.mp h]
    linarith

lemma foldl_rsiStep_nonneg (w : ℕ) (hw : 1 ≤ w) (xs : List ℚ) :
    ∀ ud : ℚ × ℚ, 0 ≤ ud.1 → 0 ≤ ud.2 →
      0 ≤ (xs.foldl (rsiStep w) ud).1 ∧ 0 ≤ (xs.foldl (rsiStep w) ud).2 := by
  induction xs with
  | nil => intro ud h1 h2; exact ⟨h1, h2⟩
  | cons d tl ih =>
      intro ud h1 h2
      rw [List.foldl_cons]
      have := rsiStep_nonneg w ud d h1 h2 hw
      exact ih _ this.1 this.2

lemma foldl_rsiStep_down_zero (w : ℕ) (xs : List ℚ) (hxs : ∀ d ∈ xs, 0 ≤ d) :
    ∀ ud : ℚ × ℚ, ud.2 = 0 → (xs.foldl (rsiStep w) ud).2 = 0 := by
  induction xs with
  | nil => intro ud h; exact h
  | cons d tl ih =>
      intro ud h
      rw [List.foldl_cons]
      apply ih (fun x hx => hxs x (List.mem_cons_of_mem _ hx))
      have hd : 0 ≤ d := hxs d (List.mem_cons_self _ _)
      unfold rsiStep
      dsimp only
      split_ifs with hlt
      · simp [h]
      · have hd0 : d = 0 := le_antisymm (not_lt.mp hlt) hd
        simp [h, hd0]

lemma rsiOf_bounds (up down : ℚ) (h1 : 0 ≤ up) (h2 : 0 ≤ down) :
    0 ≤ rsiOf up down ∧ rsiOf up down ≤ 100 := by
  unfold rsiOf
  split_ifs with h
  · norm_num
  · have hd : 0 < down := lt_of_le_of_ne h2 (Ne.symm h)
    have hrs : 0 ≤ up / down := div_nonneg h1 h2
    have hpos : 0 < 1 + up / down := by linarith
    constructor
    · have hle : 100 / (1 + up / down) ≤ 100 := by
        rw [div_le_iff₀ hpos]; nlinarith
      linarith
    · have hgt : 0 < 100 / (1 + up / down) := by positivity
      linarith

lemma diffs_nonneg : ∀ {prices : List ℚ}, prices.Chain' (· ≤ ·) →
    ∀ d ∈ diffs prices, 0 ≤ d := by
  intro prices
  induction prices with
  | nil => intro _ d hd; simp [diffs] at hd
  | cons a tl ih =>
      cases tl with
      | nil => intro _ d hd; simp [diffs] at hd
      | cons b tl2 =>
          intro h d hd
          rw [List.chain'_cons] at h
          simp only [diffs, List.mem_cons] at hd
          rcases hd with rfl | hmem
          · linarith [h.1]
          · exact ih h.2 d hmem

lemma rsiSeed_nonneg (deltas : List ℚ) (w : ℕ) :
    0 ≤ (rsiSeed deltas w).1 ∧ 0 ≤ (rsiSeed deltas w).2 := by
  unfold rsiSeed
  dsimp only
  constructor
  · apply div_nonneg _ (by positivity)
    apply List.sum_nonneg
    intro x hx
    have := (List.mem_filter.mp hx).2
    exact of_decide_eq_true this
  · apply div_nonneg _ (by positivity)
    rw [neg_nonneg]
    apply list_sum_nonpos
    intro x hx
    have := (List.mem_filter.mp hx).2
    exact le_of_lt (of_decide_eq_true this)

lemma rsiSeed_down_zero (deltas : List ℚ) (w : ℕ) (h : ∀ d ∈ deltas, 0 ≤ d) :
    (rsiSeed deltas w).2 = 0 := by
  unfold rsiSeed
  dsimp only
  have hnil : (deltas.take (w + 1)).filter (fun d => decide (d < 0)) = [] := by
    rw [List.eq_nil_iff_forall_not_mem]
    intro a ha
    have h1 := (List.mem_filter.mp ha).1
    have h2 := of_decide_eq_true (List.mem_filter.mp ha).2
    have := h a (List.mem_of_mem_take h1)
    linarith
  rw [hnil]
  simp

/-- With only non-negative deltas the `down` average is seeded at zero
and stays there, so the RSI is exactly 100. -/
lemma calculate_rsi_of_nonneg_deltas (prices : List ℚ) (hlen : 15 ≤ prices.length)
    (hd : ∀ d ∈ diffs prices, 0 ≤ d) : calculate_rsi prices 14 = some 100 := by
  unfold calculate_rsi
  rw [if_neg (by omega)]
  have hdz : (rsiSeed (diffs prices) 14).2 = 0 := rsiSeed_down_zero _ _ hd
  have hfold : (((diffs prices).drop 13).foldl (rsiStep 14)
      (rsiSeed (diffs prices) 14)).2 = 0 :=
    foldl_rsiStep_down_zero 14 _ (fun x hx => hd x (List.mem_of_mem_drop hx)) _ hdz
  simp only [Option.some.injEq]
  rw [show (14 : ℕ) - 1 = 13 from rfl, hfold]
  unfold rsiOf
  rw [if_pos rfl]

/-- C7: RSI is defined exactly when the price series has at least 15
points; every defined RSI lies in `[0, 100]`; and for a non-decreasing
price series (the `avg_loss == 0` case) the RSI is exactly 100. -/
theorem c7_rsi_range (prices : List ℚ) :
    ((calculate_rsi prices 14).isSome = true ↔ 15 ≤ prices.length) ∧
    (∀ r : ℚ, calculate_rsi prices 14 = some r → 0 ≤ r ∧ r ≤ 100) ∧
    (15 ≤ prices.length → prices.Chain' (· ≤ ·) → calculate_rsi prices 14 = some 100) := by
  refine ⟨?_, ?_, ?_⟩
  · unfold calculate_rsi
    split_ifs with h
    · simp only [Option.isSome_none, Bool.false_eq_true, false_iff]
      omega
    · simp only [Option.isSome_some, true_iff]
      omega
  · intro r hr
    unfold calculate_rsi at hr
    split_ifs at hr with h
    simp only [Option.some.injEq] at hr
    subst hr
    have hseed := rsiSeed_nonneg (diffs prices) 14
    have hud := foldl_rsiStep_nonneg 14 (by norm_num) ((diffs prices).drop 13)
      (rsiSeed (diffs prices) 14) hseed.1 hseed.2
    exact rsiOf_bounds _ _ hud.1 hud.2
  · intro hlen hchain
    exact calculate_rsi_of_nonneg_deltas prices hlen (diffs_nonneg hchain)

/-- Witness for C7: a constant 15-price series is non-decreasing and its
RSI evaluates to exactly 100. -/
theorem c7_rsi_range_witness :
    calculate_rsi (List.replicate 15 1) 14 = some 100 :=
  (c7_rsi_range (List.replicate 15 1)).2.2 (by simp)
    (List.chain'_replicate_of_rel 15 (le_refl (1 : ℚ)))

/-! ### Lemmas about the trend classifier -/

lemma trendBase_snd_mem (s m l : Direction) :
    (trendBase s m l).2 = 0.9 ∨ (trendBase s m l).2 = 0.7 ∨ (trendBase s m l).2 = 0.6 ∨
    (trendBase s m l).2 = 0.3 ∨ (trendBase s m l).2 = 0.5 := by
  unfold trendBase
  split_ifs <;> simp

lemma strength_adjust_bounds (b : ℚ)
    (hb : b = 0.9 ∨ b = 0.7 ∨ b = 0.6 ∨ b = 0.3 ∨ b = 0.5) :
    (0 ≤ b ∧ b ≤ 1) ∧
    (0 ≤ min 1 (b + 0.1) ∧ min 1 (b + 0.1) ≤ 1) ∧
    (0 ≤ max 0.1 (b - 0.1) ∧ max 0.1 (b - 0.1) ≤ 1) := by
  rcases hb with rfl | rfl | rfl | rfl | rfl <;> norm_num [min_def, max_def]

lemma determine_trend_some_cases (lastClose m7 m25 : ℚ) (ma99 : Option ℚ) :
    (determine_trend lastClose (some m7) (some m25) ma99).2 =
      (trendBase (trendVotes lastClose m7 m25 ma99).1 (trendVotes lastClose m7 m25 ma99).2.1
        (trendVotes lastClose m7 m25 ma99).2.2).2 ∨
    (determine_trend lastClose (some m7) (some m25) ma99).2 =
      min 1 ((trendBase (trendVotes lastClose m7 m25 ma99).1
        (trendVotes lastClose m7 m25 ma99).2.1 (trendVotes lastClose m7 m25 ma99).2.2).2 + 0.1) ∨
    (determine_trend lastClose (some m7) (some m25) ma99).2 =
      max 0.1 ((trendBase (trendVotes lastClose m7 m25 ma99).1
        (trendVotes lastClose m7 m25 ma99).2.1 (trendVotes lastClose m7 m25 ma99).2.2).2 - 0.1) := by
  unfold determine_trend
  dsimp only
  split_ifs <;> simp

/-- C8: the trend strength always lies in `[0, 1]`; it is `0` exactly in
the missing-moving-average case, and otherwise it is one of the
tie-break values 0.9 / 0.7 / 0.6 / 0.3 / 0.5, possibly adjusted by ±0.1
with cap 1.0 and floor 0.1. -/
theorem c8_strength_range (lastClose : ℚ) (ma7 ma25 ma99 : Option ℚ) :
    (0 ≤ (determine_trend lastClose ma7 ma25 ma99).2 ∧
     (determine_trend lastClose ma7 ma25 ma99).2 ≤ 1) ∧
    (ma7.isNone = true ∨ ma25.isNone = true →
      (determine_trend lastClose ma7 ma25 ma99).2 = 0) ∧
    (ma7.isSome = true → ma25.isSome = true →
      ∃ b : ℚ, (b = 0.9 ∨ b = 0.7 ∨ b = 0.6 ∨ b = 0.3 ∨ b = 0.5) ∧
        ((determine_trend lastClose ma7 ma25 ma99).2 = b ∨
         (determine_trend lastClose ma7 ma25 ma99).2 = min 1 (b + 0.1) ∨
         (determine_trend lastClose ma7 ma25 ma99).2 = max 0.1 (b - 0.1))) := by
  cases ma7 with
  | none =>
      have e : determine_trend lastClose none ma25 ma99 = (Direction.unknown, 0) := by
        cases ma25 <;> rfl
      rw [e]
      refine ⟨by norm_num, fun _ => rfl, fun h1 _ => ?_⟩
      simp at h1
  | some m7 =>
      cases ma25 with
      | none =>
          refine ⟨by norm_num [determine_trend], fun _ => rfl, fun _ h2 => ?_⟩
          simp at h2
      | some m25 =>
          have hbase := trendBase_snd_mem (trendVotes lastClose m7 m25 ma99).1
            (trendVotes lastClose m7 m25 ma99).2.1 (trendVotes lastClose m7 m25 ma99).2.2
          have hcases := determine_trend_some_cases lastClose m7 m25 ma99
          have hB := strength_adjust_bounds _ hbase
          refine ⟨?_, fun h => ?_, fun _ _ => ⟨_, hbase, hcases⟩⟩
          · rcases hcases with h | h | h <;> rw [h]
            · exact hB.1
            · exact hB.2.1
            · exact hB.2.2
          · rcases h with h | h <;> simp at h

/-- Witness for C8 at a concrete input. -/
theorem c8_strength_range_witness :
    0 ≤ (determine_trend 1 (some 2) (some 3) none).2 ∧
    (determine_trend 1 (some 2) (some 3) none).2 ≤ 1 :=
  (c8_strength_range 1 (some 2) (some 3) none).1

/-! ### Projection lemmas for the market-metrics record -/

lemma metrics_ma_99 (sq ex : ℚ → ℚ) (closes : List ℚ) :
    (calculate_market_metrics sq ex closes).ma_99 =
      if 99 ≤ closes.length then some (meanQ (closes.drop (closes.length - 99))) else none := rfl

lemma metrics_ma_7 (sq ex : ℚ → ℚ) (closes : List ℚ) :
    (calculate_market_metrics sq ex closes).ma_7 =
      if 7 ≤ closes.length then some (meanQ (closes.drop (closes.length - 7))) else none := rfl

lemma metrics_ma_25 (sq ex : ℚ → ℚ) (closes : List ℚ) :
    (calculate_market_metrics sq ex closes).ma_25 =
      if 25 ≤ closes.length then some (meanQ (closes.drop (closes.length - 25))) else none := rfl

lemma metrics_rsi (sq ex : ℚ → ℚ) (closes : List ℚ) :
    (calculate_market_metrics sq ex closes).rsi = calculate_rsi closes 14 := rfl

lemma metrics_macd_line (sq ex : ℚ → ℚ) (closes : List ℚ) :
    (calculate_market_metrics sq ex closes).macd_line =
      (calculate_macd ex closes 12 26 9).map (fun t => t.1.getLastD 0) := rfl

lemma metrics_signal_line (sq ex : ℚ → ℚ) (closes : List ℚ) :
    (calculate_market_metrics sq ex closes).signal_line =
      (calculate_macd ex closes 12 26 9).map (fun t => t.2.1.getLastD 0) := rfl

lemma metrics_histogram (sq ex : ℚ → ℚ) (closes : List ℚ) :
    (calculate_market_metrics sq ex closes).histogram =
      (calculate_macd ex closes 12 26 9).map (fun t => t.2.2.getLastD 0) := rfl

lemma metrics_bb_upper (sq ex : ℚ → ℚ) (closes : List ℚ) :
    (calculate_market_metrics sq ex closes).bb_upper =
      (calculate_bollinger_bands sq closes 20 2).map (fun t => t.1.getLastD 0) := rfl

lemma metrics_bb_middle (sq ex : ℚ → ℚ) (closes : List ℚ) :
    (calculate_market_metrics sq ex closes).bb_middle =
      (calculate_bollinger_bands sq closes 20 2).map (fun t => t.2.1.getLastD 0) := rfl

lemma metrics_bb_lower (sq ex : ℚ → ℚ) (closes : List ℚ) :
    (calculate_market_metrics sq ex closes).bb_lower =
      (calculate_bollinger_bands sq closes 20 2).map (fun t => t.2.2.getLastD 0) := rfl

lemma metrics_volatility (sq ex : ℚ → ℚ) (closes : List ℚ) :
    (calculate_market_metrics sq ex closes).volatility =
      stdQ sq (List.zipWith (fun d p => d / p) (diffs closes) closes.dropLast) * 100 *
        sq 24 := rfl

lemma metrics_trend_direction (sq ex : ℚ → ℚ) (closes : List ℚ) :
    (calculate_market_metrics sq ex closes).trend_direction =
      (determine_trend (closes.getLastD 0)
        (if 7 ≤ closes.length then some (meanQ (closes.drop (closes.length - 7))) else none)
        (if 25 ≤ closes.length then some (meanQ (closes.drop (closes.length - 25))) else none)
        (if 99 ≤ closes.length then some (meanQ (closes.drop (closes.length - 99)))
         else none)).1 := rfl

lemma metrics_trend_strength (sq ex : ℚ → ℚ) (closes : List ℚ) :
    (calculate_market_metrics sq ex closes).trend_strength =
      (determine_trend (closes.getLastD 0)
        (if 7 ≤ closes.length then some (meanQ (closes.drop (closes.length - 7))) else none)
        (if 25 ≤ closes.length then some (meanQ (closes.drop (closes.length - 25))) else none)
        (if 99 ≤ closes.length then some (meanQ (closes.drop (closes.length - 99)))
         else none)).2 := rfl

/-- C3, amended.  `analyze` with 23 candles fails with the
insufficient-data error.  With 24 candles it succeeds and `ma_99` and
the MACD triple are `None`; but the Bollinger fields are *defined* (the
Bollinger window is 20 ≤ 24), contrary to the frozen claim — see the
counterexample. -/
theorem c3_boundary (sqrtQ expQ : ℚ → ℚ) (cs23 cs24 : List Candle)
    (h23 : cs23.length = 23) (h24 : cs24.length = 24) :
    analyze_market_conditions sqrtQ expQ cs23 = .error "Insufficient historical data" ∧
    ∃ m : MarketMetrics, analyze_market_conditions sqrtQ expQ cs24 = .ok m ∧
      m.ma_99 = none ∧ m.macd_line = none ∧ m.signal_line = none ∧ m.histogram = none ∧
      m.bb_upper.isSome = true ∧ m.bb_middle.isSome = true ∧ m.bb_lower.isSome = true := by
  have hlen : (cs24.map Candle.close).length = 24 := by simp [h24]
  have hmacd : calculate_macd expQ (cs24.map Candle.close) 12 26 9 = none := by
    unfold calculate_macd
    rw [hlen, if_pos (by norm_num)]
  have hbb : ∃ t, calculate_bollinger_bands sqrtQ (cs24.map Candle.close) 20 2 = some t := by
    unfold calculate_bollinger_bands
    rw [hlen, if_neg (by norm_num)]
    exact ⟨_, rfl⟩
  obtain ⟨t, hbb⟩ := hbb
  constructor
  · unfold analyze_market_conditions
    rw [if_pos (by omega)]
  · refine ⟨calculate_market_metrics sqrtQ expQ (cs24.map Candle.close), ?_, ?_, ?_, ?_, ?_,
      ?_, ?_, ?_⟩
    · unfold analyze_market_conditions
      rw [if_neg (by omega)]
    · rw [metrics_ma_99, hlen, if_neg (by norm_num)]
    · rw [metrics_macd_line, hmacd]; rfl
    · rw [metrics_signal_line, hmacd]; rfl
    · rw [metrics_histogram, hmacd]; rfl
    · rw [metrics_bb_upper, hbb]; rfl
    · rw [metrics_bb_middle, hbb]; rfl
    · rw [metrics_bb_lower, hbb]; rfl

/-- Witness for the amended C3 at concrete candle lists. -/
theorem c3_boundary_witness :
    analyze_market_conditions (fun _ => 0) (fun _ => 0)
      (List.replicate 23 ⟨1, 1, 1, 1, 1⟩) = .error "Insufficient historical data" :=
  (c3_boundary (fun _ => 0) (fun _ => 0) (List.replicate 23 ⟨1, 1, 1, 1, 1⟩)
    (List.replicate 24 ⟨1, 1, 1, 1, 1⟩) (by simp) (by simp)).1

/-- C3 counterexample: at exactly 24 candles the Bollinger upper band is
defined (`Some`), refuting the frozen claim that the Bollinger fields
are `None` there. -/
theorem c3_counterexample :
    analyze_market_conditions (fun _ => 0) (fun _ => 0) (List.replicate 24 ⟨1, 1, 1, 1, 1⟩) =
      .ok (calculate_market_metrics (fun _ => 0) (fun _ => 0)
        ((List.replicate 24 (⟨1, 1, 1, 1, 1⟩ : Candle)).map Candle.close)) ∧
    (calculate_market_metrics (fun _ => 0) (fun _ => 0)
      ((List.replicate 24 (⟨1, 1, 1, 1, 1⟩ : Candle)).map Candle.close)).bb_upper.isSome =
      true := by
  constructor
  · unfold analyze_market_conditions
    rw [if_neg (by simp)]
  · rw [metrics_bb_upper]
    have hbb : ∃ t, calculate_bollinger_bands (fun _ => (0 : ℚ))
        ((List.replicate 24 (⟨1, 1, 1, 1, 1⟩ : Candle)).map Candle.close) 20 2 = some t := by
      unfold calculate_bollinger_bands
      rw [if_neg (by simp)]
      exact ⟨_, rfl⟩
    obtain ⟨t, hbb⟩ := hbb
    rw [hbb]
    rfl

/-! ### Flat-series lemmas (C4) -/

lemma getLastD_replicate (c : ℚ) : ∀ (n : ℕ) (d : ℚ), (List.replicate (n + 1) c).getLastD d = c := by
  intro n
  induction n with
  | zero => intro d; rfl
  | succ n ih =>
      intro d
      rw [List.replicate_succ, List.getLastD_cons]
      exact ih c

lemma diffs_replicate (c : ℚ) : ∀ n, diffs (List.replicate n c) = List.replicate (n - 1) 0
  | 0 => rfl
  | 1 => rfl
  | n + 2 => by
      have ih := diffs_replicate c (n + 1)
      show diffs (List.replicate (n + 2) c) = List.replicate (n + 1) 0
      have e1 : List.replicate (n + 2) c = c :: List.replicate (n + 1) c :=
        List.replicate_succ ..
      have e2 : List.replicate (n + 1) c = c :: List.replicate n c := List.replicate_succ ..
      rw [e1, e2]
      simp only [diffs]
      rw [← e2, ih]
      simp [List.replicate_succ]

lemma zipWith_replicate_same (f : ℚ → ℚ → ℚ) (a b : ℚ) :
    ∀ m, List.zipWith f (List.replicate m a) (List.replicate m b) = List.replicate m (f a b) := by
  intro m
  induction m with
  | zero => rfl
  | succ m ih => simp [List.replicate_succ, ih]

lemma meanQ_replicate (m : ℕ) (c : ℚ) (hm : m ≠ 0) : meanQ (List.replicate m c) = c := by
  unfold meanQ
  rw [List.sum_replicate, List.length_replicate, nsmul_eq_mul]
  exact mul_div_cancel_left₀ c (Nat.cast_ne_zero.mpr hm)

lemma meanQ_replicate_zero (m : ℕ) : meanQ (List.replicate m (0 : ℚ)) = 0 := by
  unfold meanQ
  rw [List.sum_replicate]
  simp

lemma varQ_replicate_zero (m : ℕ) : varQ (List.replicate m (0 : ℚ)) = 0 := by
  unfold varQ
  rw [meanQ_replicate_zero, List.map_replicate]
  have h0 : ((0 : ℚ) - 0) ^ 2 = 0 := by norm_num
  rw [h0, meanQ_replicate_zero]

lemma determine_trend_flat (c : ℚ) (hc : c ≠ 0) (o : Option ℚ) (ho : o = none ∨ o = some c) :
    determine_trend c (some c) (some c) o = (Direction.down, 0.9) := by
  have hv : trendVotes c c c o = (Direction.down, Direction.down, Direction.down) := by
    rcases ho with rfl | rfl <;> simp [trendVotes]
  unfold determine_trend
  dsimp only
  rw [hv]
  simp only [trendBase]
  rw [div_self hc]
  norm_num

/-- Core computation for a flat price series: zero volatility, RSI
exactly 100, trend `("down", 0.9)` — all three directional votes are
`down` because the comparisons are strict and fail on equality. -/
lemma flat_metrics (sqrtQ expQ : ℚ → ℚ) (hsq : sqrtQ 0 = 0) (n : ℕ) (c : ℚ)
    (hn : 25 ≤ n) (hc : c ≠ 0) :
    (calculate_market_metrics sqrtQ expQ (List.replicate n c)).volatility = 0 ∧
    (calculate_market_metrics sqrtQ expQ (List.replicate n c)).rsi = some 100 ∧
    (calculate_market_metrics sqrtQ expQ (List.replicate n c)).trend_direction =
      Direction.down ∧
    (calculate_market_metrics sqrtQ expQ (List.replicate n c)).trend_strength = 0.9 := by
  have hlen : (List.replicate n c).length = n := by simp
  have hvol : (calculate_market_metrics sqrtQ expQ (List.replicate n c)).volatility = 0 := by
    rw [metrics_volatility, diffs_replicate c n, List.dropLast_replicate,
      zipWith_replicate_same]
    simp only [zero_div]
    unfold stdQ
    rw [varQ_replicate_zero, hsq]
    ring
  have hrsi : (calculate_market_metrics sqrtQ expQ (List.replicate n c)).rsi = some 100 := by
    rw [metrics_rsi]
    apply calculate_rsi_of_nonneg_deltas
    · rw [hlen]; omega
    · rw [diffs_replicate c n]
      intro d hd
      rw [List.eq_of_mem_replicate hd]
  have hma7 : (if 7 ≤ (List.replicate n c).length then
      some (meanQ ((List.replicate n c).drop ((List.replicate n c).length - 7))) else none) =
      some c := by
    rw [hlen, if_pos (by omega), List.drop_replicate]
    have h7 : n - (n - 7) = 7 := by omega
    rw [h7, meanQ_replicate 7 c (by norm_num)]
  have hma25 : (if 25 ≤ (List.replicate n c).length then
      some (meanQ ((List.replicate n c).drop ((List.replicate n c).length - 25))) else none) =
      some c := by
    rw [hlen, if_pos (by omega), List.drop_replicate]
    have h25 : n - (n - 25) = 25 := by omega
    rw [h25, meanQ_replicate 25 c (by norm_num)]
  have hma99 : (if 99 ≤ (List.replicate n c).length then
      some (meanQ ((List.replicate n c).drop ((List.replicate n c).length - 99))) else none) =
      none ∨ (if 99 ≤ (List.replicate n c).length then
      some (meanQ ((List.replicate n c).drop ((List.replicate n c).length - 99))) else none) =
      some c := by
    rw [hlen]
    split_ifs with h
    · right
      rw [List.drop_replicate]
      have h99 : n - (n - 99) = 99 := by omega
      rw [h99, meanQ_replicate 99 c (by norm_num)]
    · left; rfl
  have hlast : (List.replicate n c).getLastD 0 = c := by
    obtain ⟨m, rfl⟩ : ∃ m, n = m + 1 := ⟨n - 1, by omega⟩
    exact getLastD_replicate c m 0
  have htrend : (determine_trend ((List.replicate n c).getLastD 0)
      (if 7 ≤ (List.replicate n c).length then
        some (meanQ ((List.replicate n c).drop ((List.replicate n c).length - 7))) else none)
      (if 25 ≤ (List.replicate n c).length then
        some (meanQ ((List.replicate n c).drop ((List.replicate n c).length - 25))) else none)
      (if 99 ≤ (List.replicate n c).length then
        some (meanQ ((List.replicate n c).drop ((List.replicate n c).length - 99)))
       else none)) = (Direction.down, 0.9) := by
    rw [hlast, hma7, hma25]
    exact determine_trend_flat c hc _ hma99
  refine ⟨hvol, hrsi, ?_, ?_⟩
  · rw [metrics_trend_direction, htrend]
  · rw [metrics_trend_strength, htrend]

/-- C4, amended.  For a flat price series long enough that `ma_7` and
`ma_25` are defined (and `ma_99` possibly too): volatility is 0 and the
RSI division-by-zero case yields RSI = 100 exactly as the frozen claim
states; but the trend classifier returns direction `down` with strength
0.9 (the all-agree row of the tie-break table), not `sideways` — the
three strict comparisons all fail on equality and vote `down`.  See the
counterexample. -/
theorem c4_flat_series (sqrtQ expQ : ℚ → ℚ) (hsq : sqrtQ 0 = 0) (n : ℕ) (c : ℚ)
    (hn : 25 ≤ n) (hc : c ≠ 0) :
    (calculate_market_metrics sqrtQ expQ (List.replicate n c)).volatility = 0 ∧
    (calculate_market_metrics sqrtQ expQ (List.replicate n c)).rsi = some 100 ∧
    (calculate_market_metrics sqrtQ expQ (List.replicate n c)).trend_direction =
      Direction.down ∧
    (calculate_market_metrics sqrtQ expQ (List.replicate n c)).trend_strength = 0.9 :=
  flat_metrics sqrtQ expQ hsq n c hn hc

/-- Witness for the amended C4 at 25 candles of constant price 100. -/
theorem c4_flat_series_witness :
    (calculate_market_metrics (fun _ => 0) (fun _ => 0)
      (List.replicate 25 (100 : ℚ))).volatility = 0 :=
  (c4_flat_series (fun _ => 0) (fun _ => 0) rfl 25 100 (by norm_num) (by norm_num)).1

/-- C4 counterexample: on a flat 25-price series the classifier returns
direction `down`, not `sideways` as the frozen claim states. -/
theorem c4_counterexample :
    (calculate_market_metrics (fun _ => 0) (fun _ => 0)
      (List.replicate 25 (100 : ℚ))).trend_direction = Direction.down ∧
    Direction.down ≠ Direction.sideways := by
  refine ⟨(flat_metrics (fun _ => 0) (fun _ => 0) rfl 25 100 (by norm_num)
    (by norm_num)).2.2.1, by simp⟩

/-! ### Lemmas for the external-optimizer fallback (C5) -/

lemma rateLimit_self (c : ℚ) (hc : 0 < c) : rateLimit (some c) (some c) = some c := by
  show (if c ≠ 0 ∧ c ≠ 0 then some (max (c - c * 0.3) (min (c + c * 0.3) c))
    else some c) = some c
  rw [if_pos ⟨ne_of_gt hc, ne_of_gt hc⟩]
  congr 1
  rw [min_eq_right (by linarith)]
  exact max_eq_right (by linarith)

/-- Sanitizing a configuration that is already within all its bounds
against itself changes nothing. -/
lemma sanitize_self (cfg : Params)
    (hpm : withinB 0.1 5.0 cfg.profit_margin = true)
    (hts : withinB 0.001 0.1 cfg.trade_size = true)
    (hmo : withinB 1 168 cfg.max_open_time = true)
    (hsl : withinOrNullB 1.0 15.0 cfg.stop_loss = true) :
    sanitize_parameters cfg cfg = cfg := by
  obtain ⟨pm, ts, mot, sl⟩ := cfg
  obtain ⟨p, hp, hp1, hp2⟩ := withinB_some hpm
  obtain ⟨t, ht, ht1, ht2⟩ := withinB_some hts
  obtain ⟨u, hu, hu1, hu2⟩ := withinB_some hmo
  simp only at hp ht hu
  subst hp; subst ht; subst hu
  have hsl' : clampAbs 1.0 15.0 sl = sl := by
    cases sl with
    | none => rfl
    | some s =>
        simp only [withinOrNullB, decide_eq_true_eq] at hsl
        exact clampAbs_of_within hsl.1 hsl.2
  have f1 : rateLimit (some p) (clampAbs 0.1 5.0 (some p)) = some p := by
    rw [clampAbs_of_within hp1 hp2]
    exact rateLimit_self p (by linarith)
  have f2 : rateLimit (some t) (clampAbs 0.001 0.1 (some t)) = some t := by
    rw [clampAbs_of_within ht1 ht2]
    exact rateLimit_self t (by linarith)
  have f3 : rateLimit (some u) (clampAbs 1 168 (some u)) = some u := by
    rw [clampAbs_of_within hu1 hu2]
    exact rateLimit_self u (by linarith)
  show Params.mk (rateLimit (some p) (clampAbs 0.1 5.0 (some p)))
      (rateLimit (some t) (clampAbs 0.001 0.1 (some t)))
      (rateLimit (some u) (clampAbs 1 168 (some u)))
      (clampAbs 1.0 15.0 sl) = Params.mk (some p) (some t) (some u) sl
  rw [f1, f2, f3, hsl']

/-- C5, amended.  When the external call raises (malformed payload), the
collaborator itself substitutes the current configuration with an
error-noting reasoning string, and the optimizer then succeeds with the
re-sanitized — hence, for an in-bounds configuration, unmodified —
current ParameterSet.  But a well-formed non-mapping payload does *not*
fall back: the optimizer fails the call (see the counterexample). -/
theorem c5_fallback (cfg : Params) (e : String)
    (hpm : withinB 0.1 5.0 cfg.profit_margin = true)
    (hts : withinB 0.001 0.1 cfg.trade_size = true)
    (hmo : withinB 1 168 cfg.max_open_time = true)
    (hsl : withinOrNullB 1.0 15.0 cfg.stop_loss = true) :
    llm_optimize (llmFallback cfg e) cfg =
      { success := true, errMsg := none, new_config := some cfg,
        reasoning := some ("Error optimizing parameters: " ++ e),
        expected_improvement := some "None due to optimization failure" } := by
  have hs := sanitize_self cfg hpm hts hmo hsl
  have heta : (⟨cfg.profit_margin, cfg.trade_size, cfg.max_open_time, cfg.stop_loss⟩ :
      Params) = cfg := rfl
  unfold llm_optimize llmFallback
  dsimp only
  rw [if_neg (by simp [LLMMapping.isEmpty])]
  simp only [Option.getD_some]
  rw [heta, hs]

/-- Witness for the amended C5 at a concrete in-bounds configuration. -/
theorem c5_fallback_witness :
    llm_optimize (llmFallback ⟨some 1, some 0.05, some 48, none⟩ "boom")
      ⟨some 1, some 0.05, some 48, none⟩ =
      { success := true, errMsg := none,
        new_config := some ⟨some 1, some 0.05, some 48, none⟩,
        reasoning := some ("Error optimizing parameters: " ++ "boom"),
        expected_improvement := some "None due to optimization failure" } :=
  c5_fallback ⟨some 1, some 0.05, some 48, none⟩ "boom" (by norm_num [withinB])
    (by norm_num [withinB]) (by norm_num [withinB]) (by norm_num [withinOrNullB])

/-- C5 counterexample: a non-mapping payload (e.g. a JSON array) makes
the optimizer return a failure result — it does not fall back to the
current ParameterSet, refuting the frozen claim for that input. -/
theorem c5_counterexample :
    (llm_optimize LLMPayload.nonMapping ⟨some 1, some 0.01, some 48, none⟩).success = false ∧
    (llm_optimize LLMPayload.nonMapping ⟨some 1, some 0.01, some 48, none⟩).errMsg =
      some "Invalid optimization result" ∧
    (llm_optimize LLMPayload.nonMapping ⟨some 1, some 0.01, some 48, none⟩).new_config =
      none :=
  ⟨rfl, rfl, rfl⟩
